import Mathlib

/-!
Shallow embedding of `src/dashboard.py`, a Streamlit dashboard over a
real-estate `properties` table, together with theorems about the claims
of the natural-language specification.

Conventions of the embedding:
* A dataframe row that has reached the filtering stage is a `Row` with the
  columns the filters touch (`Price`, `Occupancy`, `Comarca`, `Barrio`).
  Integer prices model Python ints (line 119-120 coerces with `int(...)`).
* The raw table returned by `pd.read_sql` is column-oriented: a `Table` is
  an association list from column name to the column's cell strings; the
  numeric `astype(float, errors='ignore')` conversion is kept abstract
  (cells stay strings), since the split/store logic is what the claims test.
* Exceptions are modelled with `Except String`: the `try` bodies of
  `get_database_connection` and `load_data` are parameters describing the
  outcome of the fallible calls, and `st.error` calls accumulate into a
  list of displayed messages.
* Floating-point `np.logspace` output is abstracted as an arbitrary list
  of integers `raw`; everything the code does after the rounding step
  (append the min/max, `np.unique`, sort) is modelled exactly.
* Python's `f"¥{v:,.0f}"` converts the integer through an IEEE-754
  float64 before printing; since for integer input the resulting double
  is itself an integer, this conversion is modelled exactly on integers
  by `roundToDouble` (round to nearest, ties to even, at the 53-bit
  significand granularity), composed with exact decimal comma-grouping.
-/

/-- Row of the loaded dataframe, restricted to the columns used by the
sidebar filters (`dashboard.py` lines 160-168). -/
structure Row where
  Price : Int
  Occupancy : String
  Comarca : String
  Barrio : String
deriving DecidableEq, Repr

/-- The boolean mask of lines 160-166 applied to one row:
`mask = df['Price'].between(selMin, selMax)`, `mask &= Occupancy.isin`,
then conditionally `&= Comarca ==` (when the selectbox is not "Todas")
and `&= Barrio.isin` (when the selection list is nonempty). -/
def rowMask (selMin selMax : Int) (ocupacion : List String) (comarca : String)
    (barrios : List String) (r : Row) : Bool :=
  let m := decide (selMin ≤ r.Price) && decide (r.Price ≤ selMax)
  let m := m && ocupacion.contains r.Occupancy
  let m := if comarca ≠ "Todas" then m && (r.Comarca == comarca) else m
  if barrios.isEmpty then m else m && barrios.contains r.Barrio

/-- `filtered_df = df[mask]` (line 168): keep the rows satisfying the mask,
in order. -/
def filtered_df (df : List Row) (selMin selMax : Int) (ocupacion : List String)
    (comarca : String) (barrios : List String) : List Row :=
  df.filter (rowMask selMin selMax ocupacion comarca barrios)

/-- Unfolding of the mask of lines 160-166 into a proposition, for a
nonempty barrio selection. -/
theorem rowMask_eq_true (selMin selMax : Int) (ocupacion : List String)
    (comarca : String) (barrios : List String) (hbar : barrios ≠ [])
    (r : Row) :
    rowMask selMin selMax ocupacion comarca barrios r = true ↔
      selMin ≤ r.Price ∧ r.Price ≤ selMax ∧
      r.Occupancy ∈ ocupacion ∧
      (comarca = "Todas" ∨ r.Comarca = comarca) ∧
      r.Barrio ∈ barrios := by
  have hbe : barrios.isEmpty = false := by
    cases barrios with
    | nil => exact absurd rfl hbar
    | cons a l => rfl
  by_cases hc : comarca = "Todas"
  · simp [rowMask, hbe, hc, List.contains, List.elem_iff, and_assoc]
  · simp [rowMask, hbe, hc, List.contains, List.elem_iff, and_assoc]

/-- C1. For every loaded dataframe and every choice of filter values (the
barrio selection being nonempty, as the fallback of lines 104-110
guarantees), the filtered dataframe is a sublist of the original (rows keep
their original order and contents) and contains exactly the rows whose
Price lies in the selected closed interval, whose Occupancy is in the
selected set, whose Comarca matches unless "Todas" is selected, and whose
Barrio is in the selected list. -/
theorem filtered_df_characterization (df : List Row) (selMin selMax : Int)
    (ocupacion : List String) (comarca : String) (barrios : List String)
    (hbar : barrios ≠ []) :
    List.Sublist (filtered_df df selMin selMax ocupacion comarca barrios) df ∧
    ∀ r : Row, r ∈ filtered_df df selMin selMax ocupacion comarca barrios ↔
      r ∈ df ∧ selMin ≤ r.Price ∧ r.Price ≤ selMax ∧
      r.Occupancy ∈ ocupacion ∧
      (comarca = "Todas" ∨ r.Comarca = comarca) ∧
      r.Barrio ∈ barrios := by
  refine ⟨List.filter_sublist df, fun r => ?_⟩
  rw [filtered_df, List.mem_filter,
    rowMask_eq_true selMin selMax ocupacion comarca barrios hbar r]

/-- Witness for C1 at a concrete dataframe and filter choice. -/
theorem filtered_df_characterization_witness :
    List.Sublist
      (filtered_df
        [⟨100, "Vacant", "Centro", "Shinjuku"⟩, ⟨900, "Occupied", "Norte", "Ueno"⟩]
        50 500 ["Vacant", "Occupied"] "Todas" ["Shinjuku"])
      [⟨100, "Vacant", "Centro", "Shinjuku"⟩, ⟨900, "Occupied", "Norte", "Ueno"⟩] ∧
    ((⟨100, "Vacant", "Centro", "Shinjuku"⟩ : Row) ∈
      filtered_df
        [⟨100, "Vacant", "Centro", "Shinjuku"⟩, ⟨900, "Occupied", "Norte", "Ueno"⟩]
        50 500 ["Vacant", "Occupied"] "Todas" ["Shinjuku"] ↔
      (⟨100, "Vacant", "Centro", "Shinjuku"⟩ : Row) ∈
        [⟨100, "Vacant", "Centro", "Shinjuku"⟩, ⟨900, "Occupied", "Norte", "Ueno"⟩] ∧
      (50 : Int) ≤ 100 ∧ (100 : Int) ≤ 500 ∧
      "Vacant" ∈ ["Vacant", "Occupied"] ∧
      ("Todas" = "Todas" ∨ "Centro" = "Todas") ∧
      "Shinjuku" ∈ ["Shinjuku"]) := by
  have h := filtered_df_characterization
    [⟨100, "Vacant", "Centro", "Shinjuku"⟩, ⟨900, "Occupied", "Norte", "Ueno"⟩]
    50 500 ["Vacant", "Occupied"] "Todas" ["Shinjuku"] (by decide)
  exact ⟨h.1, h.2 ⟨100, "Vacant", "Centro", "Shinjuku"⟩⟩

/-! ### The raw table and the loading pipeline (lines 34-63) -/

/-- Column-oriented dataframe as read from the database: an association
list from column name to that column's cells (kept as strings; the
`astype(float, errors='ignore')` numeric conversion is abstracted). -/
abbrev Table : Type := List (String × List String)

/-- Cells of a named column; the empty list when the column is absent. -/
def getCol (df : Table) (name : String) : List String :=
  match df with
  | [] => []
  | c :: rest => if c.1 = name then c.2 else getCol rest name

/-- Whether the table has a column of the given name
(`'Coordinates' in df.columns`, line 58). -/
def hasCol (df : Table) (name : String) : Bool :=
  match df with
  | [] => false
  | c :: rest => if c.1 = name then true else hasCol rest name

/-- Pandas column assignment `df[name] = vals`: overwrite the column in
place when it exists, otherwise append it as a new last column. -/
def setCol (df : Table) (name : String) (vals : List String) : Table :=
  if hasCol df name then
    df.map (fun c => if c.1 = name then (name, vals) else c)
  else df ++ [(name, vals)]

/-- First field of `s.split(',')` (pandas `str.split(',', expand=True)`
column 0). -/
def latPart (s : String) : String := (s.splitOn ",").getD 0 ""

/-- Second field of `s.split(',')` (pandas `str.split(',', expand=True)`
column 1). -/
def lonPart (s : String) : String := (s.splitOn ",").getD 1 ""

/-- Lines 58-59: when a `Coordinates` column exists, store its split
halves in columns `lat` and `lon`; otherwise leave the table as read. -/
def coordSplit (df : Table) : Table :=
  if hasCol df "Coordinates" then
    let coords := getCol df "Coordinates"
    setCol (setCol df "lat" (coords.map latPart)) "lon" (coords.map lonPart)
  else df

/-- Abstract SQLAlchemy engine: the connection string it was created
from (line 43). -/
abbrev Engine : Type := String

/-- Lines 36-47, `get_database_connection`: the `try` body (reading
`st.secrets` and `create_engine`) is modelled by its outcome `attempt`;
any exception is caught, an error message naming the exception is
displayed, and `None` is returned. The second component collects the
`st.error` messages displayed. -/
def get_database_connection (attempt : Except String Engine) :
    Option Engine × List String :=
  match attempt with
  | .ok engine => (some engine, [])
  | .error e => (none, ["Error conectando a la base de datos: " ++ e])

/-- Lines 50-63, `load_data`: an empty dataframe when the engine is
`None`; otherwise run the query (`runQuery` models
`pd.read_sql('SELECT * FROM properties', engine)`), split the
`Coordinates` column on success, and on any exception display an error
message naming the exception and return an empty dataframe. -/
def load_data (attempt : Except String Engine)
    (runQuery : Engine → Except String Table) : Table × List String :=
  match get_database_connection attempt with
  | (none, msgs) => (([] : List (String × List String)), msgs)
  | (some engine, msgs) =>
    match runQuery engine with
    | .ok df => (coordSplit df, msgs)
    | .error e =>
      (([] : List (String × List String)),
        msgs ++ ["Error cargando datos: " ++ e])

/-! ### Lemmas about column assignment -/

/-- Overwriting column `m` leaves any other column `n` unchanged. -/
theorem getCol_overwrite_ne (df : Table) (m n : String) (v : List String)
    (h : n ≠ m) :
    getCol (df.map (fun c => if c.1 = m then (m, v) else c)) n = getCol df n := by
  induction df with
  | nil => rfl
  | cons c rest ih =>
    by_cases hc : c.1 = m
    · have hmn : ¬ m = n := fun he => h he.symm
      have hcn : ¬ c.1 = n := fun he => h (he.symm.trans hc)
      simp [getCol, hc, hmn, hcn, ih]
    · simp [getCol, hc, ih]

/-- Appending a new column `m` leaves any other column `n` unchanged. -/
theorem getCol_append_ne (df : Table) (m n : String) (v : List String)
    (h : n ≠ m) :
    getCol (df ++ [(m, v)]) n = getCol df n := by
  induction df with
  | nil =>
    have hmn : ¬ m = n := fun he => h he.symm
    simp [getCol, hmn]
  | cons c rest ih =>
    by_cases hc : c.1 = n
    · simp [getCol, hc]
    · simp [getCol, hc, ih]

/-- `setCol` on column `m` leaves any other column `n` unchanged. -/
theorem getCol_setCol_ne (df : Table) (m n : String) (v : List String)
    (h : n ≠ m) :
    getCol (setCol df m v) n = getCol df n := by
  rw [setCol]
  by_cases hh : hasCol df m
  · rw [if_pos hh]; exact getCol_overwrite_ne df m n v h
  · rw [if_neg hh]; exact getCol_append_ne df m n v h

/-- After `setCol df n v`, reading column `n` yields `v`. -/
theorem getCol_setCol_self (df : Table) (n : String) (v : List String) :
    getCol (setCol df n v) n = v := by
  rw [setCol]
  by_cases hh : hasCol df n = true
  · rw [if_pos hh]
    induction df with
    | nil => simp [hasCol] at hh
    | cons c rest ih =>
      by_cases hc : c.1 = n
      · simp [getCol, hc]
      · rw [hasCol, if_neg hc] at hh
        simp [getCol, hc, ih hh]
  · rw [if_neg hh]
    induction df with
    | nil => simp [getCol]
    | cons c rest ih =>
      rw [hasCol] at hh
      by_cases hc : c.1 = n
      · rw [if_pos hc] at hh; exact absurd rfl hh
      · rw [if_neg hc] at hh
        simp [getCol, hc, ih hh]

/-- After `setCol df n v`, column `n` exists. -/
theorem hasCol_setCol_self (df : Table) (n : String) (v : List String) :
    hasCol (setCol df n v) n = true := by
  rw [setCol]
  by_cases hh : hasCol df n = true
  · rw [if_pos hh]
    induction df with
    | nil => simp [hasCol] at hh
    | cons c rest ih =>
      by_cases hc : c.1 = n
      · simp [hasCol, hc]
      · rw [hasCol, if_neg hc] at hh
        simp [hasCol, hc, ih hh]
  · rw [if_neg hh]
    induction df with
    | nil => simp [hasCol]
    | cons c rest ih =>
      rw [hasCol] at hh
      by_cases hc : c.1 = n
      · rw [if_pos hc] at hh; exact absurd rfl hh
      · rw [if_neg hc] at hh
        simp [hasCol, hc, ih hh]

/-- Overwriting column `m` does not affect the existence of column `n`. -/
theorem hasCol_overwrite_ne (df : Table) (m n : String) (v : List String)
    (h : n ≠ m) :
    hasCol (df.map (fun c => if c.1 = m then (m, v) else c)) n
      = hasCol df n := by
  induction df with
  | nil => rfl
  | cons c rest ih =>
    by_cases hc : c.1 = m
    · have hmn : ¬ m = n := fun he => h he.symm
      have hcn : ¬ c.1 = n := fun he => h (he.symm.trans hc)
      simp [hasCol, hc, hmn, hcn, ih]
    · by_cases hcn : c.1 = n
      · simp [hasCol, hc, hcn, h]
      · simp [hasCol, hc, hcn, ih]

/-- Appending a new column `m` does not affect the existence of column
`n ≠ m`. -/
theorem hasCol_append_ne (df : Table) (m n : String) (v : List String)
    (h : n ≠ m) :
    hasCol (df ++ [(m, v)]) n = hasCol df n := by
  induction df with
  | nil =>
    have hmn : ¬ m = n := fun he => h he.symm
    simp [hasCol, hmn]
  | cons c rest ih =>
    by_cases hcn : c.1 = n
    · simp [hasCol, hcn]
    · simp [hasCol, hcn, ih]

/-- `setCol` on column `m` does not affect the existence of column `n`. -/
theorem hasCol_setCol_ne (df : Table) (m n : String) (v : List String)
    (h : n ≠ m) :
    hasCol (setCol df m v) n = hasCol df n := by
  rw [setCol]
  by_cases hh : hasCol df m
  · rw [if_pos hh]; exact hasCol_overwrite_ne df m n v h
  · rw [if_neg hh]; exact hasCol_append_ne df m n v h

/-- C7. The `lat`/`lon` columns are produced if and only if the loaded
table has a `Coordinates` column: when it is absent the table is returned
unchanged, and when it is present the new `lat` and `lon` columns hold,
for each row, the part of the `Coordinates` string before (resp. after)
the comma. -/
theorem coordSplit_spec (df : Table) :
    (hasCol df "Coordinates" = false → coordSplit df = df) ∧
    (hasCol df "Coordinates" = true →
      getCol (coordSplit df) "lat" = (getCol df "Coordinates").map latPart ∧
      getCol (coordSplit df) "lon" = (getCol df "Coordinates").map lonPart ∧
      hasCol (coordSplit df) "lat" = true ∧
      hasCol (coordSplit df) "lon" = true) := by
  constructor
  · intro h
    rw [coordSplit, h]
    simp
  · intro h
    rw [coordSplit, h]
    simp only [if_true]
    refine ⟨?_, ?_, ?_, ?_⟩
    · rw [getCol_setCol_ne _ _ _ _ (by decide), getCol_setCol_self]
    · rw [getCol_setCol_self]
    · rw [hasCol_setCol_ne _ _ _ _ (by decide), hasCol_setCol_self]
    · rw [hasCol_setCol_self]

/-- Witness for C7: a table with a `Coordinates` column gets split `lat`
values; a table without one is returned unchanged. -/
theorem coordSplit_spec_witness :
    coordSplit [("Price", ["100"])] = [("Price", ["100"])] ∧
    getCol (coordSplit [("Coordinates", ["1.5,2.5"])]) "lat" =
      (getCol [("Coordinates", ["1.5,2.5"])] "Coordinates").map latPart :=
  ⟨(coordSplit_spec [("Price", ["100"])]).1 (by decide),
   ((coordSplit_spec [("Coordinates", ["1.5,2.5"])]).2 (by decide)).1⟩

/-- C2 as stated is false: the displayed message is not the same for
every exception, because it interpolates `str(e)`. Two different
query exceptions produce two different displayed messages. -/
theorem load_data_message_depends_on_exception :
    (load_data (Except.ok "postgresql://u:p@h:5432/db")
        (fun _ => Except.error "timeout")).2 ≠
    (load_data (Except.ok "postgresql://u:p@h:5432/db")
        (fun _ => Except.error "permission denied")).2 := by
  decide

/-- C2 amended. Any exception while establishing the connection or
running the query is caught by the broad guard, and the displayed message
is the site's fixed prefix followed by the exception's text — so the
message varies with the exception, only the prefix is static. -/
theorem load_data_error_messages (e : String) (engine : Engine)
    (runQuery : Engine → Except String Table) :
    (load_data (Except.error e) runQuery).2 =
      ["Error conectando a la base de datos: " ++ e] ∧
    (load_data (Except.ok engine) (fun _ => Except.error e)).2 =
      ["Error cargando datos: " ++ e] :=
  ⟨rfl, rfl⟩

/-- C4. When the connection fails, or when the query raises any
exception, `load_data` returns the empty dataframe — never a partially
populated one. -/
theorem load_data_empty_on_failure (e e2 : String) (engine : Engine)
    (runQueryA runQueryB : Engine → Except String Table)
    (h : runQueryB engine = Except.error e2) :
    (load_data (Except.error e) runQueryA).1 = [] ∧
    (load_data (Except.ok engine) runQueryB).1 = [] := by
  refine ⟨rfl, ?_⟩
  simp [load_data, get_database_connection, h]

/-- Witness for C4 at a concrete failing connection and failing query. -/
theorem load_data_empty_on_failure_witness :
    (load_data (Except.error "boom") (fun _ => Except.ok [])).1 = [] ∧
    (load_data (Except.ok "eng") (fun _ => Except.error "bad sql")).1 = [] :=
  load_data_empty_on_failure "boom" "bad sql" "eng" (fun _ => Except.ok [])
    (fun _ => Except.error "bad sql") rfl

/-! ### Price formatting and parsing (lines 137 and 154-156)

The slider labels are built with `f"¥{i:,.0f}"` (thousands separated by
commas) and parsed back with `int(s.replace("¥", "").replace(",", ""))`.
-/

/-- Little-endian decimal digits of a natural number (empty for `0`). -/
def digitsLE (n : Nat) : List Nat :=
  if h : n = 0 then []
  else (n % 10) :: digitsLE (n / 10)
decreasing_by exact Nat.div_lt_self (Nat.pos_of_ne_zero h) (by decide)

/-- Value of a little-endian digit list. -/
def valLE : List Nat → Nat
  | [] => 0
  | d :: ds => d + 10 * valLE ds

theorem valLE_digitsLE (n : Nat) : valLE (digitsLE n) = n := by
  induction n using Nat.strong_induction_on with
  | _ n ih =>
    by_cases h : n = 0
    · subst h; simp [digitsLE, valLE]
    · rw [digitsLE, dif_neg h, valLE,
        ih (n / 10) (Nat.div_lt_self (Nat.pos_of_ne_zero h) (by decide))]
      exact Nat.mod_add_div n 10

theorem digitsLE_lt_ten (n : Nat) : ∀ d ∈ digitsLE n, d < 10 := by
  induction n using Nat.strong_induction_on with
  | _ n ih =>
    by_cases h : n = 0
    · subst h; intro d hd; simp [digitsLE] at hd
    · rw [digitsLE, dif_neg h]
      intro d hd
      rcases List.mem_cons.mp hd with h1 | h2
      · subst h1; exact Nat.mod_lt n (by decide)
      · exact ih (n / 10) (Nat.div_lt_self (Nat.pos_of_ne_zero h) (by decide)) d h2

/-- The character of a decimal digit. -/
def digitChar (d : Nat) : Char := Char.ofNat (48 + d)

/-- The decimal digit of a character. -/
def digitVal (c : Char) : Nat := c.toNat - 48

theorem digitChar_spec (d : Nat) (h : d < 10) :
    digitChar d ≠ '¥' ∧ digitChar d ≠ ',' ∧ digitChar d ≠ '-' ∧
    digitVal (digitChar d) = d := by
  interval_cases d <;> exact ⟨by decide, by decide, by decide, by decide⟩

/-- Insert a thousands separator after every three characters of a
little-endian digit string while digits remain. -/
def groupLE : List Char → List Char
  | a :: b :: c :: d :: rest => a :: b :: c :: ',' :: groupLE (d :: rest)
  | l => l

/-- `s.replace("¥", "").replace(",", "")` of line 155-156: removing every
yen sign and comma. -/
def stripSymbols (l : List Char) : List Char :=
  l.filter (fun c => !(c == '¥' || c == ','))

theorem stripSymbols_groupLE (l : List Char)
    (h : ∀ c ∈ l, c ≠ '¥' ∧ c ≠ ',') :
    stripSymbols (groupLE l) = l := by
  induction l using groupLE.induct with
  | case1 a b c d rest ih =>
    have ha := h a (by simp)
    have hb := h b (by simp)
    have hc := h c (by simp)
    have hrest : ∀ x ∈ d :: rest, x ≠ '¥' ∧ x ≠ ',' := by
      intro x hx
      exact h x (by simp at hx ⊢; tauto)
    have hih := ih hrest
    have fa : (!(a == '¥' || a == ',')) = true := by simp [ha.1, ha.2]
    have fb : (!(b == '¥' || b == ',')) = true := by simp [hb.1, hb.2]
    have fc : (!(c == '¥' || c == ',')) = true := by simp [hc.1, hc.2]
    have fcomma : ¬ ((!((',' : Char) == '¥' || (',' : Char) == ',')) = true) := by
      decide
    rw [groupLE, stripSymbols,
      List.filter_cons_of_pos (p := fun c => !(c == '¥' || c == ',')) fa,
      List.filter_cons_of_pos (p := fun c => !(c == '¥' || c == ',')) fb,
      List.filter_cons_of_pos (p := fun c => !(c == '¥' || c == ',')) fc,
      List.filter_cons_of_neg (p := fun c => !(c == '¥' || c == ',')) fcomma]
    rw [stripSymbols] at hih
    rw [hih]
  | case2 l hl =>
    rw [groupLE.eq_def]
    split
    · rename_i a b c d rest
      exact absurd rfl (hl a b c d rest)
    · exact List.filter_eq_self.mpr (fun c hc => by
        have := h c hc
        simp [this.1, this.2])

/-- Little-endian character string of a natural number (`"0"` for zero,
least significant digit first otherwise). -/
def digitCharsLE (n : Nat) : List Char :=
  if n = 0 then ['0'] else (digitsLE n).map digitChar

/-- The comma-grouped decimal string of `n`, most significant digit
first: the digit part of Python's `f"{n:,.0f}"`. -/
def commaGroupedBE (n : Nat) : List Char := (groupLE (digitCharsLE n)).reverse

/-- Round to the nearest multiple of `u` (a power of two), ties to the
even multiple: the binade-local rounding a float64 conversion performs on
its 53-bit significand. -/
def roundAtGranularity (n u : Nat) : Nat :=
  if 2 * (n % u) < u then (n / u) * u
  else if u < 2 * (n % u) then (n / u + 1) * u
  else if (n / u) % 2 = 0 then (n / u) * u else (n / u + 1) * u

/-- The value of `float(n)` for a natural number `n`: integers up to
`2^53 = 9007199254740992` convert exactly; above that, IEEE-754 float64
keeps 53 significant bits, so `n` is rounded to the nearest multiple of
`2^(bitlength(n) - 53)` (where `bitlength(n) = Nat.log2 n + 1`), ties to
the even multiple. Python's `f` presentation type performs this
conversion before printing. -/
def roundToDouble (n : Nat) : Nat :=
  if n ≤ 9007199254740992 then n
  else roundAtGranularity n (2 ^ (Nat.log2 n + 1 - 53))

/-- `f"¥{v:,.0f}"` of line 137 for an integer value: the `f` presentation
type converts the integer through float64 (`roundToDouble`, lossy above
`2^53`), then the resulting integer is printed with thousands
separators. -/
def pythonFormatInt (v : Int) : String :=
  if v < 0 then "¥-" ++ String.mk (commaGroupedBE (roundToDouble v.natAbs))
  else "¥" ++ String.mk (commaGroupedBE (roundToDouble v.toNat))

/-- Decimal value of a big-endian digit string (Python `int(...)` on the
digit part). -/
def parseDigitsBE (l : List Char) : Nat :=
  l.foldl (fun acc c => acc * 10 + digitVal c) 0

/-- Lines 155-156: strip `"¥"` and `","` and convert to `int`, sign
included. -/
def parsePrice (s : String) : Int :=
  let t := stripSymbols s.data
  if t.headD ' ' = '-' then - (parseDigitsBE t.tail : Int)
  else (parseDigitsBE t : Int)

theorem digitCharsLE_ne (n : Nat) :
    ∀ c ∈ digitCharsLE n, c ≠ '¥' ∧ c ≠ ',' ∧ c ≠ '-' := by
  intro c hc
  rw [digitCharsLE] at hc
  by_cases h : n = 0
  · rw [if_pos h] at hc
    simp only [List.mem_singleton] at hc
    subst hc
    exact ⟨by decide, by decide, by decide⟩
  · rw [if_neg h] at hc
    rcases List.mem_map.mp hc with ⟨d, hd, rfl⟩
    have hlt := digitsLE_lt_ten n d hd
    have hs := digitChar_spec d hlt
    exact ⟨hs.1, hs.2.1, hs.2.2.1⟩

theorem digitCharsLE_ne_nil (n : Nat) : digitCharsLE n ≠ [] := by
  rw [digitCharsLE]
  by_cases h : n = 0
  · simp [h]
  · rw [if_neg h, digitsLE, dif_neg h]
    simp

theorem parseDigitsBE_append (l : List Char) (c : Char) :
    parseDigitsBE (l ++ [c]) = (parseDigitsBE l) * 10 + digitVal c := by
  rw [parseDigitsBE, parseDigitsBE, List.foldl_append]
  rfl

theorem parseDigitsBE_reverse (ds : List Nat) (h : ∀ d ∈ ds, d < 10) :
    parseDigitsBE ((ds.map digitChar).reverse) = valLE ds := by
  induction ds with
  | nil => rfl
  | cons d rest ih =>
    rw [List.map_cons, List.reverse_cons, parseDigitsBE_append,
      ih (fun x hx => h x (List.mem_cons_of_mem _ hx)),
      (digitChar_spec d (h d (List.mem_cons_self _ _))).2.2.2, valLE]
    omega

theorem parseDigitsBE_digitCharsLE (n : Nat) :
    parseDigitsBE ((digitCharsLE n).reverse) = n := by
  rw [digitCharsLE]
  by_cases h : n = 0
  · rw [if_pos h, h]
    decide
  · rw [if_neg h, parseDigitsBE_reverse _ (digitsLE_lt_ten n), valLE_digitsLE]

theorem stripSymbols_commaGroupedBE (m : Nat) :
    stripSymbols (commaGroupedBE m) = (digitCharsLE m).reverse := by
  have h : ∀ c ∈ digitCharsLE m, c ≠ '¥' ∧ c ≠ ',' := fun c hc =>
    ⟨(digitCharsLE_ne m c hc).1, (digitCharsLE_ne m c hc).2.1⟩
  rw [commaGroupedBE]
  show List.filter _ (groupLE (digitCharsLE m)).reverse = _
  rw [List.filter_reverse]
  have hg := stripSymbols_groupLE (digitCharsLE m) h
  rw [stripSymbols] at hg
  rw [hg]

theorem headD_reverse_digitCharsLE_ne (m : Nat) :
    (digitCharsLE m).reverse.headD ' ' ≠ '-' := by
  have hnil : (digitCharsLE m).reverse ≠ [] := by
    intro hx
    exact digitCharsLE_ne_nil m (List.reverse_eq_nil_iff.mp hx)
  have hmem : (digitCharsLE m).reverse.headD ' ' ∈ (digitCharsLE m).reverse := by
    cases hL : (digitCharsLE m).reverse with
    | nil => exact absurd hL hnil
    | cons c cs => simp
  exact (digitCharsLE_ne m _ (List.mem_reverse.mp hmem)).2.2

/-- Parsing a price label recovers the float64-rounded value: the sign
together with `roundToDouble` of the magnitude. -/
theorem parsePrice_pythonFormatInt (v : Int) :
    parsePrice (pythonFormatInt v) =
      if v < 0 then -(roundToDouble v.natAbs : Int)
      else (roundToDouble v.toNat : Int) := by
  rw [pythonFormatInt]
  by_cases hv : v < 0
  · simp only [if_pos hv]
    have hdata : (("¥-" : String)
          ++ String.mk (commaGroupedBE (roundToDouble v.natAbs))).data
        = '¥' :: '-' :: commaGroupedBE (roundToDouble v.natAbs) := by
      rw [String.data_append]
      rfl
    have hyen : ¬ ((!(('¥' : Char) == '¥' || ('¥' : Char) == ',')) = true) := by
      decide
    have hminus : (!(('-' : Char) == '¥' || ('-' : Char) == ',')) = true := by
      decide
    rw [parsePrice, hdata]
    rw [stripSymbols,
      List.filter_cons_of_neg (p := fun c => !(c == '¥' || c == ',')) hyen,
      List.filter_cons_of_pos (p := fun c => !(c == '¥' || c == ',')) hminus]
    have hstrip := stripSymbols_commaGroupedBE (roundToDouble v.natAbs)
    rw [stripSymbols] at hstrip
    rw [hstrip]
    have hcond : ('-' :: (digitCharsLE (roundToDouble v.natAbs)).reverse).headD ' '
        = '-' := rfl
    rw [if_pos hcond, List.tail_cons, parseDigitsBE_digitCharsLE]
  · simp only [if_neg hv]
    have hdata : (("¥" : String)
          ++ String.mk (commaGroupedBE (roundToDouble v.toNat))).data
        = '¥' :: commaGroupedBE (roundToDouble v.toNat) := by
      rw [String.data_append]
      rfl
    have hyen : ¬ ((!(('¥' : Char) == '¥' || ('¥' : Char) == ',')) = true) := by
      decide
    rw [parsePrice, hdata]
    rw [stripSymbols,
      List.filter_cons_of_neg (p := fun c => !(c == '¥' || c == ',')) hyen]
    have hstrip := stripSymbols_commaGroupedBE (roundToDouble v.toNat)
    rw [stripSymbols] at hstrip
    rw [hstrip]
    rw [if_neg (headD_reverse_digitCharsLE_ne (roundToDouble v.toNat))]
    rw [parseDigitsBE_digitCharsLE]

theorem roundToDouble_eq_self (n : Nat) (h : n ≤ 9007199254740992) :
    roundToDouble n = n := by
  rw [roundToDouble, if_pos h]

/-- Format-then-parse round trip on the float64-exact range
`|v| ≤ 2^53`. -/
theorem parsePrice_pythonFormatInt_small (v : Int)
    (h : v.natAbs ≤ 9007199254740992) :
    parsePrice (pythonFormatInt v) = v := by
  rw [parsePrice_pythonFormatInt]
  by_cases hv : v < 0
  · rw [if_pos hv, roundToDouble_eq_self v.natAbs h]
    omega
  · rw [if_neg hv, roundToDouble_eq_self v.toNat (by omega)]
    omega

/-- C9 amended. For every nonnegative slider value `v` up to
`2^53 = 9007199254740992` — the range where float64 represents every
integer exactly — formatting it as `f"¥{v:,.0f}"` and parsing the label
back by stripping `"¥"` and `","` and converting to `int` returns
exactly `v`, so in that range the numeric bounds used by the price
filter equal the slider values the user selected. -/
theorem price_label_roundtrip (v : Int) (h0 : 0 ≤ v)
    (h1 : v ≤ 9007199254740992) :
    parsePrice (pythonFormatInt v) = v :=
  parsePrice_pythonFormatInt_small v (by omega)

/-- Witness for amended C9 at `v = 1234567` (label `"¥1,234,567"`). -/
theorem price_label_roundtrip_witness :
    (0 : Int) ≤ 1234567 ∧ (1234567 : Int) ≤ 9007199254740992 ∧
    parsePrice (pythonFormatInt 1234567) = 1234567 :=
  ⟨by decide, by decide, price_label_roundtrip 1234567 (by decide) (by decide)⟩

/-! ### The logarithmic price slider (lines 118-156)

`np.logspace(log_min, log_max, 100)` is floating-point; its rounded
integer output is abstracted as an arbitrary list `raw`. The remaining
steps — `np.append`, `np.unique` (sorted distinct values), `sort` — are
modelled exactly.
-/

/-- Insert a value into a strictly sorted list, keeping it sorted and
without duplicates. -/
def insertSortedDedup (x : Int) : List Int → List Int
  | [] => [x]
  | y :: ys =>
    if x < y then x :: y :: ys
    else if x = y then y :: ys
    else y :: insertSortedDedup x ys

/-- `np.unique`: the sorted list of distinct values. -/
def npUnique (l : List Int) : List Int := l.foldr insertSortedDedup []

/-- Lines 130-134: the slider's value list is the rounded logarithmic
values (`raw`) with the exact minimum and maximum appended, deduplicated
and sorted (`np.unique` already sorts; line 134 sorts again). -/
def price_values (raw : List Int) (min_price max_price : Int) : List Int :=
  npUnique (raw ++ [min_price, max_price])

/-- Line 137: the formatted slider labels. -/
def price_options (pv : List Int) : List String := pv.map pythonFormatInt

/-- `np.searchsorted` with the default `side='left'` on a sorted list:
the number of elements strictly below `x`. -/
def searchsorted (l : List Int) (x : Int) : Nat :=
  (l.takeWhile (fun y => decide (y < x))).length

theorem mem_insertSortedDedup (x a : Int) (l : List Int) :
    a ∈ insertSortedDedup x l ↔ a = x ∨ a ∈ l := by
  induction l with
  | nil => simp [insertSortedDedup]
  | cons y ys ih =>
    rw [insertSortedDedup]
    by_cases h1 : x < y
    · simp [h1]
    · by_cases h2 : x = y
      · subst h2
        rw [if_neg h1, if_pos rfl]
        simp only [List.mem_cons]
        tauto
      · simp [h1, h2, ih]
        tauto

theorem pairwise_insertSortedDedup (x : Int) (l : List Int)
    (h : l.Pairwise (fun a b => a < b)) :
    (insertSortedDedup x l).Pairwise (fun a b => a < b) := by
  induction l with
  | nil => simp [insertSortedDedup]
  | cons y ys ih =>
    rw [insertSortedDedup]
    obtain ⟨hy, hys⟩ := List.pairwise_cons.mp h
    by_cases h1 : x < y
    · rw [if_pos h1]
      refine List.pairwise_cons.mpr ⟨?_, h⟩
      intro z hz
      rcases List.mem_cons.mp hz with rfl | hzt
      · exact h1
      · exact lt_trans h1 (hy z hzt)
    · rw [if_neg h1]
      by_cases h2 : x = y
      · rw [if_pos h2]
        exact h
      · rw [if_neg h2]
        refine List.pairwise_cons.mpr ⟨?_, ih hys⟩
        intro z hz
        rcases (mem_insertSortedDedup x z ys).mp hz with rfl | hzt
        · omega
        · exact hy z hzt

theorem pairwise_npUnique (l : List Int) :
    (npUnique l).Pairwise (fun a b => a < b) := by
  induction l with
  | nil => simp [npUnique]
  | cons a t ih => exact pairwise_insertSortedDedup a (npUnique t) ih

theorem mem_npUnique (a : Int) (l : List Int) :
    a ∈ npUnique l ↔ a ∈ l := by
  induction l with
  | nil => simp [npUnique]
  | cons b t ih =>
    show a ∈ insertSortedDedup b (npUnique t) ↔ _
    rw [mem_insertSortedDedup, ih]
    simp

/-- C9 as stated is false: Python's `f` presentation type converts the
integer through float64 before printing, so the slider value
`2^53 + 1 = 9007199254740993` — which reaches the slider list as the
exact appended maximum price — formats as `"¥9,007,199,254,740,992"` and
parses back to `2^53`, not to itself. -/
theorem price_label_roundtrip_counterexample :
    (9007199254740993 : Int) ∈ price_values [] 0 9007199254740993 ∧
    parsePrice (pythonFormatInt 9007199254740993) ≠ 9007199254740993 := by
  constructor
  · rw [price_values, mem_npUnique]
    simp
  · have h1 : Nat.log2 9007199254740993 = 53 := by
      rw [Nat.log2_eq_log_two]
      exact Nat.log_eq_of_pow_le_of_lt_pow (by norm_num) (by norm_num)
    have h2 : roundToDouble 9007199254740993 = 9007199254740992 := by
      rw [roundToDouble, if_neg (by norm_num), h1]
      decide
    have h3 : parsePrice (pythonFormatInt 9007199254740993) =
        ((roundToDouble 9007199254740993 : Nat) : Int) := by
      rw [parsePrice_pythonFormatInt, if_neg (by norm_num)]
      rfl
    rw [h3, h2]
    decide


/-- C5. For minimum price `m ≥ 0` and maximum price `M > m`, the slider
value list — the (rounded, abstracted) logarithmically spaced values with
the exact `m` and `M` appended, deduplicated and sorted — is strictly
increasing and contains both `m` and `M`; this holds whatever integer
values the logspace step produced. -/
theorem price_values_sorted_and_complete (raw : List Int) (m M : Int)
    (h0 : 0 ≤ m) (h1 : m < M) :
    List.Chain' (fun a b => a < b) (price_values raw m M) ∧
    m ∈ price_values raw m M ∧ M ∈ price_values raw m M := by
  refine ⟨List.Pairwise.chain' (pairwise_npUnique _), ?_, ?_⟩
  · rw [price_values, mem_npUnique]
    simp
  · rw [price_values, mem_npUnique]
    simp

/-- Witness for C5 at a concrete logspace output and price range. -/
theorem price_values_sorted_and_complete_witness :
    List.Chain' (fun a b => a < b) (price_values [7, 3, 7] 0 10) ∧
    (0 : Int) ∈ price_values [7, 3, 7] 0 10 ∧
    (10 : Int) ∈ price_values [7, 3, 7] 0 10 :=
  price_values_sorted_and_complete [7, 3, 7] 0 10 (by decide) (by decide)

theorem takeWhile_getD_lt (l : List Int) (x : Int) :
    ∀ j : Nat, j < (l.takeWhile (fun y => decide (y < x))).length →
      l.getD j 0 < x := by
  induction l with
  | nil =>
    intro j hj
    simp at hj
  | cons a t ih =>
    intro j hj
    by_cases ha : a < x
    · have hpa : (fun y => decide (y < x)) a = true := by simp [ha]
      rw [List.takeWhile_cons_of_pos (p := fun y => decide (y < x)) hpa,
        List.length_cons] at hj
      cases j with
      | zero => simpa using ha
      | succ j =>
        rw [List.getD_cons_succ]
        exact ih j (Nat.lt_of_succ_lt_succ hj)
    · have hpa : ¬ ((fun y => decide (y < x)) a = true) := by simp [ha]
      rw [List.takeWhile_cons_of_neg (p := fun y => decide (y < x)) hpa] at hj
      simp at hj

theorem searchsorted_pos_of_lt (pv : List Int) (m M : Int)
    (hpw : pv.Pairwise (fun a b => a < b)) (hm : m ∈ pv) (hlt : m < M) :
    1 ≤ searchsorted pv M := by
  cases pv with
  | nil => simp at hm
  | cons h t =>
    have hhm : h ≤ m := by
      rcases List.mem_cons.mp hm with rfl | hmt
      · exact le_refl _
      · exact le_of_lt ((List.pairwise_cons.mp hpw).1 m hmt)
    have hph : (fun y => decide (y < M)) h = true := by
      simp
      omega
    rw [searchsorted, List.takeWhile_cons_of_pos (p := fun y => decide (y < M)) hph,
      List.length_cons]
    exact Nat.succ_le_succ (Nat.zero_le _)

theorem searchsorted_le_length (l : List Int) (x : Int) :
    searchsorted l x ≤ l.length :=
  List.Sublist.length_le (List.takeWhile_sublist _)

theorem getD_map_format (l : List Int) (n : Nat) (h : n < l.length) :
    (l.map pythonFormatInt).getD n "" = pythonFormatInt (l.getD n 0) := by
  induction l generalizing n with
  | nil => simp at h
  | cons a t ih =>
    cases n with
    | zero => rfl
    | succ n =>
      rw [List.map_cons, List.getD_cons_succ, List.getD_cons_succ]
      exact ih n (Nat.lt_of_succ_lt_succ h)

/-- Whatever the comarca and barrio branches of the mask do, a row kept
by the mask has `Price ≤ selMax`. -/
theorem rowMask_price_le (selMin selMax : Int) (ocupacion : List String)
    (comarca : String) (barrios : List String) (r : Row)
    (h : rowMask selMin selMax ocupacion comarca barrios r = true) :
    r.Price ≤ selMax := by
  rw [rowMask] at h
  by_cases hc : comarca ≠ "Todas" <;> by_cases hb : barrios.isEmpty = true <;>
    simp only [hc, hb, if_true, if_false, Bool.and_eq_true,
      decide_eq_true_eq, if_pos, if_neg] at h <;>
  · simp [hc, hb] at h
    tauto

/-- The label at index `searchsorted(price_values, max_price) - 1`
(line 145, `default_max_price`). -/
def default_max_price (pv : List Int) (max_price : Int) : String :=
  (price_options pv).getD (searchsorted pv max_price - 1) ""

/-- C8 as stated is false: at `min_price = 2^54 - 1 = 18014398509481983`,
`max_price = 2^54 = 18014398509481984`, the default upper option is the
label of `2^54 - 1`, but the `f` spec's float64 conversion rounds it to
`2^54`, so the label reads `"¥18,014,398,509,481,984"`; the parsed
default bound equals the maximum, and a property priced exactly at the
dataset maximum is not excluded from the default filtered view. -/
theorem default_max_price_counterexample :
    parsePrice (default_max_price
        (price_values [] 18014398509481983 18014398509481984)
        18014398509481984) = 18014398509481984 ∧
    (⟨18014398509481984, "Vacant", "Centro", "Shinjuku"⟩ : Row) ∈
      filtered_df [⟨18014398509481984, "Vacant", "Centro", "Shinjuku"⟩] 0
        (parsePrice (default_max_price
          (price_values [] 18014398509481983 18014398509481984)
          18014398509481984))
        ["Vacant"] "Todas" ["Shinjuku"] := by
  have hpv : price_values [] 18014398509481983 18014398509481984 =
      [(18014398509481983 : Int), 18014398509481984] := by
    decide
  have hone : searchsorted [(18014398509481983 : Int), 18014398509481984]
      18014398509481984 = 1 := by
    decide
  have hlog : Nat.log2 18014398509481983 = 53 := by
    rw [Nat.log2_eq_log_two]
    exact Nat.log_eq_of_pow_le_of_lt_pow (by norm_num) (by norm_num)
  have hround : roundToDouble 18014398509481983 = 18014398509481984 := by
    rw [roundToDouble, if_neg (by norm_num), hlog]
    decide
  have hlabel : default_max_price
      [(18014398509481983 : Int), 18014398509481984] 18014398509481984
      = pythonFormatInt 18014398509481983 := by
    rw [default_max_price, hone]
    rfl
  have hparse : parsePrice (pythonFormatInt (18014398509481983 : Int)) =
      (18014398509481984 : Int) := by
    have h3 : parsePrice (pythonFormatInt (18014398509481983 : Int)) =
        ((roundToDouble 18014398509481983 : Nat) : Int) := by
      rw [parsePrice_pythonFormatInt, if_neg (by norm_num)]
      rfl
    rw [h3, hround]
    rfl
  rw [hpv, hlabel, hparse]
  refine ⟨rfl, ?_⟩
  rw [filtered_df]
  apply List.mem_filter.mpr
  refine ⟨List.mem_cons_self _ _, ?_⟩
  rw [rowMask_eq_true 0 18014398509481984 ["Vacant"] "Todas" ["Shinjuku"]
    (by decide) ⟨18014398509481984, "Vacant", "Centro", "Shinjuku"⟩]
  exact ⟨by decide, by decide, by decide, Or.inl rfl, by decide⟩

/-- C8 amended. When `0 ≤ m < M ≤ 2^53` (the slider values' magnitudes in
the float64-exact range, as the counterexample above forces), the default
upper bound of the price slider is the option at index
`searchsorted(price_values, max_price) - 1`, whose parsed value is
strictly less than `M`; consequently a property priced exactly at the
dataset maximum is excluded from the default filtered view, whatever the
other filters are. -/
theorem default_max_price_excludes_max (raw : List Int) (m M : Int)
    (h0 : 0 ≤ m) (h1 : m < M) (hM : M ≤ 9007199254740992) :
    parsePrice (default_max_price (price_values raw m M) M) < M ∧
    ∀ (df : List Row) (selMin : Int) (ocupacion : List String)
      (comarca : String) (barrios : List String) (r : Row),
      r.Price = M →
      r ∉ filtered_df df selMin
          (parsePrice (default_max_price (price_values raw m M) M))
          ocupacion comarca barrios := by
  have hpw : (price_values raw m M).Pairwise (fun a b => a < b) :=
    pairwise_npUnique _
  have hm : m ∈ price_values raw m M := by
    rw [price_values, mem_npUnique]
    simp
  have hidx : 1 ≤ searchsorted (price_values raw m M) M :=
    searchsorted_pos_of_lt _ m M hpw hm h1
  have hlen : searchsorted (price_values raw m M) M ≤ (price_values raw m M).length :=
    searchsorted_le_length _ M
  have hj : searchsorted (price_values raw m M) M - 1
      < (List.takeWhile (fun y => decide (y < M)) (price_values raw m M)).length := by
    rw [searchsorted] at hidx ⊢
    omega
  have hval : (price_values raw m M).getD
      (searchsorted (price_values raw m M) M - 1) 0 < M :=
    takeWhile_getD_lt (price_values raw m M) M _ hj
  have hlabel : default_max_price (price_values raw m M) M
      = pythonFormatInt ((price_values raw m M).getD
          (searchsorted (price_values raw m M) M - 1) 0) := by
    rw [default_max_price, price_options, getD_map_format _ _ (by omega)]
  have hplt : parsePrice (default_max_price (price_values raw m M) M) < M := by
    rw [hlabel]
    by_cases hx : (price_values raw m M).getD
        (searchsorted (price_values raw m M) M - 1) 0 < 0
    · rw [parsePrice_pythonFormatInt, if_pos hx]
      omega
    · rw [parsePrice_pythonFormatInt_small _ (by omega)]
      exact hval
  refine ⟨hplt, ?_⟩
  intro df selMin ocupacion comarca barrios r hr hmem
  have hmask := List.of_mem_filter hmem
  have hple := rowMask_price_le selMin _ ocupacion comarca barrios r hmask
  omega

/-- Witness for amended C8: with slider values from `m = 0`, `M = 10`,
the parsed default upper bound is below 10 and a row priced 10 is
filtered out. -/
theorem default_max_price_excludes_max_witness :
    parsePrice (default_max_price (price_values [7] 0 10) 10) < 10 ∧
    (⟨10, "Vacant", "Centro", "Shinjuku"⟩ : Row) ∉
      filtered_df [⟨10, "Vacant", "Centro", "Shinjuku"⟩] 0
        (parsePrice (default_max_price (price_values [7] 0 10) 10))
        ["Vacant"] "Todas" ["Shinjuku"] := by
  have h := default_max_price_excludes_max [7] 0 10 (by decide) (by decide)
    (by decide)
  exact ⟨h.1, h.2 [⟨10, "Vacant", "Centro", "Shinjuku"⟩] 0 ["Vacant"] "Todas"
    ["Shinjuku"] ⟨10, "Vacant", "Centro", "Shinjuku"⟩ rfl⟩

/-! ### Reordering the table columns (lines 288-305) -/

/-- The up-button handler at row `i`:
`order[i], order[i-1] = order[i-1], order[i]`. -/
def swapUp (l : List String) (i : Nat) : List String :=
  (l.set i (l.getD (i - 1) "")).set (i - 1) (l.getD i "")

/-- The down-button handler at row `i`:
`order[i], order[i+1] = order[i+1], order[i]`. -/
def swapDown (l : List String) (i : Nat) : List String :=
  (l.set i (l.getD (i + 1) "")).set (i + 1) (l.getD i "")

/-- C6. Pressing ↑ at position `i > 0` swaps entries `i` and `i-1` of the
session column-order list, and pressing ↓ at `i < length - 1` swaps
entries `i` and `i+1`; the length and every other position are
unchanged. -/
theorem column_order_swap (l : List String) (i : Nat) :
    (0 < i → i < l.length →
      (swapUp l i).length = l.length ∧
      (swapUp l i)[i - 1]? = l[i]? ∧
      (swapUp l i)[i]? = l[i - 1]? ∧
      ∀ j : Nat, j ≠ i → j ≠ i - 1 → (swapUp l i)[j]? = l[j]?) ∧
    (i + 1 < l.length →
      (swapDown l i).length = l.length ∧
      (swapDown l i)[i]? = l[i + 1]? ∧
      (swapDown l i)[i + 1]? = l[i]? ∧
      ∀ j : Nat, j ≠ i → j ≠ i + 1 → (swapDown l i)[j]? = l[j]?) := by
  constructor
  · intro h0 hi
    have hi1 : i - 1 < l.length := by omega
    have hvi : l.getD i "" = l[i] := by
      rw [List.getD_eq_getElem?_getD, List.getElem?_eq_getElem hi]
      rfl
    have hvi1 : l.getD (i - 1) "" = l[i - 1] := by
      rw [List.getD_eq_getElem?_getD, List.getElem?_eq_getElem hi1]
      rfl
    refine ⟨by simp [swapUp], ?_, ?_, ?_⟩
    · rw [swapUp, hvi, hvi1,
        List.getElem?_set_self (by rw [List.length_set]; exact hi1),
        List.getElem?_eq_getElem hi]
    · rw [swapUp, hvi, hvi1, List.getElem?_set_ne (by omega),
        List.getElem?_set_self hi, List.getElem?_eq_getElem hi1]
    · intro j hj1 hj2
      rw [swapUp, List.getElem?_set_ne (fun he => hj2 he.symm),
        List.getElem?_set_ne (fun he => hj1 he.symm)]
  · intro hi
    have hii : i < l.length := by omega
    have hvi : l.getD i "" = l[i] := by
      rw [List.getD_eq_getElem?_getD, List.getElem?_eq_getElem hii]
      rfl
    have hvi1 : l.getD (i + 1) "" = l[i + 1] := by
      rw [List.getD_eq_getElem?_getD, List.getElem?_eq_getElem hi]
      rfl
    refine ⟨by simp [swapDown], ?_, ?_, ?_⟩
    · rw [swapDown, hvi, hvi1, List.getElem?_set_ne (by omega),
        List.getElem?_set_self hii, List.getElem?_eq_getElem hi]
    · rw [swapDown, hvi, hvi1,
        List.getElem?_set_self (by rw [List.length_set]; exact hi),
        List.getElem?_eq_getElem hii]
    · intro j hj1 hj2
      rw [swapDown, List.getElem?_set_ne (fun he => hj2 he.symm),
        List.getElem?_set_ne (fun he => hj1 he.symm)]

/-- Witness for C6 on the initial column order, pressing ↑ and ↓ at
position 1. -/
theorem column_order_swap_witness :
    (swapUp ["Address", "Price", "Size"] 1).length = 3 ∧
    (swapUp ["Address", "Price", "Size"] 1)[0]? =
      (["Address", "Price", "Size"] : List String)[1]? ∧
    (swapDown ["Address", "Price", "Size"] 1)[2]? =
      (["Address", "Price", "Size"] : List String)[1]? := by
  have h := column_order_swap ["Address", "Price", "Size"] 1
  have hu := h.1 (by decide) (by decide)
  have hd := h.2 (by decide)
  exact ⟨hu.1, hu.2.1, hd.2.2.1⟩

/-! ### The barrio selection fallback (lines 97-110) -/

/-- Lines 104-110: `checked` is the list of barrios whose checkbox the
user ticked (in the order of `disponibles`); when it is empty, fall back
to `["Shinjuku"]` if Shinjuku is available, else to
`[barrios_disponibles[0]]`. -/
def barrios_seleccionados (disponibles checked : List String) : List String :=
  if checked.isEmpty then
    if disponibles.contains "Shinjuku" then ["Shinjuku"]
    else [disponibles.headD ""]
  else checked

/-- C10. For every nonempty list of available barrios, the selection used
for filtering is nonempty: with every checkbox unticked it falls back to
`["Shinjuku"]` when Shinjuku is available and otherwise to the first
available barrio. -/
theorem barrios_seleccionados_nonempty (disponibles checked : List String)
    (h : disponibles ≠ []) :
    barrios_seleccionados disponibles checked ≠ [] ∧
    (checked = [] →
      ("Shinjuku" ∈ disponibles →
        barrios_seleccionados disponibles checked = ["Shinjuku"]) ∧
      ("Shinjuku" ∉ disponibles →
        barrios_seleccionados disponibles checked = [disponibles.headD ""])) := by
  constructor
  · rw [barrios_seleccionados]
    by_cases hc : checked.isEmpty = true
    · rw [if_pos hc]
      split <;> simp
    · rw [if_neg hc]
      intro hx
      rw [hx] at hc
      exact hc rfl
  · intro hck
    subst hck
    constructor
    · intro hs
      simp [barrios_seleccionados, List.contains, List.elem_iff, hs]
    · intro hs
      simp [barrios_seleccionados, List.contains, List.elem_iff, hs]

/-- Witness for C10: two available barrios, nothing ticked. -/
theorem barrios_seleccionados_nonempty_witness :
    barrios_seleccionados ["Asakusa", "Shinjuku"] [] ≠ [] ∧
    barrios_seleccionados ["Asakusa", "Shinjuku"] [] = ["Shinjuku"] := by
  have h := barrios_seleccionados_nonempty ["Asakusa", "Shinjuku"] [] (by decide)
  exact ⟨h.1, (h.2 rfl).1 (by decide)⟩

/-! ### Top-to-bottom rendering after the load (lines 66-347)

The script is re-run top to bottom on every interaction; we record the
sequence of rendered items. The nonempty branch lists the sidebar
filters, the four metrics, the four distribution/correlation charts, then
the map (or a warning when the filtered dataframe is empty) and the data
table (or a warning). The exact chart/table contents are owned by the
charting library and are not modelled. -/

inductive RenderItem where
  | errorBox (msg : String)
  | warningBox (msg : String)
  | sidebarFilter (label : String)
  | metricBox (label : String)
  | chartBox (title : String)
  | dataTable
deriving DecidableEq, Repr

/-- Lines 66-347 after `load_data`: halt with only the error box when the
dataframe is empty (`st.stop`, line 71); otherwise render the sidebar
filters, metrics, charts, and map/table. -/
def renderDashboard (df : List Row) (comarca : String)
    (checked ocupacion : List String) (priceRange : String × String) :
    List RenderItem :=
  if df.isEmpty then
    [RenderItem.errorBox
      "No se pudieron cargar datos. Verifique la conexión a la base de datos."]
  else
    let barrios := barrios_seleccionados (df.map Row.Barrio).dedup checked
    let selMin := parsePrice priceRange.1
    let selMax := parsePrice priceRange.2
    let fdf := filtered_df df selMin selMax ocupacion comarca barrios
    [RenderItem.sidebarFilter "Comarca",
     RenderItem.sidebarFilter "Seleccionar Barrios",
     RenderItem.sidebarFilter "Estado de Ocupación",
     RenderItem.sidebarFilter "Rango de Precio (¥)",
     RenderItem.metricBox "Precio Promedio",
     RenderItem.metricBox "Rentabilidad Media",
     RenderItem.metricBox "Propiedades",
     RenderItem.metricBox "Periodo de Recuperación",
     RenderItem.chartBox "Distribución de Precios",
     RenderItem.chartBox "Distribución de Rentabilidad",
     RenderItem.chartBox "Rentabilidad vs Precio",
     RenderItem.chartBox "Precio vs Tamaño"] ++
    (if fdf.isEmpty then
      [RenderItem.warningBox
        "No hay propiedades que coincidan con los filtros seleccionados."]
     else [RenderItem.chartBox "Mapa de Propiedades"]) ++
    (if fdf.isEmpty then
      [RenderItem.warningBox "No hay datos para mostrar."]
     else [RenderItem.dataTable])

/-- C3. When `load_data` returns an empty dataframe, rendering halts:
the run displays exactly the error box and nothing else — no sidebar
filter, no metric, no chart, and no table. -/
theorem empty_dataframe_halts (df : List Row) (comarca : String)
    (checked ocupacion : List String) (priceRange : String × String)
    (h : df = []) :
    renderDashboard df comarca checked ocupacion priceRange =
      [RenderItem.errorBox
        "No se pudieron cargar datos. Verifique la conexión a la base de datos."] ∧
    ∀ item ∈ renderDashboard df comarca checked ocupacion priceRange,
      (∀ s, item ≠ RenderItem.sidebarFilter s) ∧
      (∀ s, item ≠ RenderItem.metricBox s) ∧
      (∀ s, item ≠ RenderItem.chartBox s) ∧
      item ≠ RenderItem.dataTable := by
  subst h
  refine ⟨rfl, ?_⟩
  intro item hitem
  simp only [renderDashboard, List.isEmpty_nil, if_true, List.mem_singleton]
    at hitem
  subst hitem
  exact ⟨fun s => by simp, fun s => by simp, fun s => by simp, by simp⟩

/-- Witness for C3 on an empty dataframe and arbitrary concrete inputs. -/
theorem empty_dataframe_halts_witness :
    renderDashboard [] "Todas" [] ["Vacant"] ("¥0", "¥100") =
      [RenderItem.errorBox
        "No se pudieron cargar datos. Verifique la conexión a la base de datos."] :=
  (empty_dataframe_halts [] "Todas" [] ["Vacant"] ("¥0", "¥100") rfl).1
